import Mathlib

/-!
Verification of the claude-reviewer PR review state engine against its
command-line layer (`claude_reviewer/cli.py`).

The CLI command bodies (`create`, `update`, `merge`, `watch`) are embedded
directly from `src/claude-reviewer-cli/claude_reviewer/cli.py`.  The storage
module (`claude_reviewer/database.py`) and the git collaborator
(`claude_reviewer/git_ops.py`) are not part of the provided sources; the
definitions that stand in for them are modelled from the specification's
contracts (storage layer ops in spec section 4.1, git collaborator interface
in spec section 6) and are marked as such in their doc comments.

Timestamps and opaque identifiers are modelled as natural numbers; diff
texts, branch names and commit identifiers as strings.  Console output that
matters to the claims (warnings) is returned explicitly; purely decorative
output is dropped.
-/

namespace ClaudeReviewer

/-- Status enum of a pull request (`models.PRStatus`, values listed in
`cli.py`'s status tables and in the spec's state machine, section 4.2). -/
inductive PRStatus where
  | pending
  | approved
  | changes_requested
  | merged
  | closed
deriving DecidableEq, Repr

/-- Pull request record (spec section 3, "PullRequest"). -/
structure PullRequest where
  uuid : Nat
  repo_path : String
  title : String
  description : String
  base_ref : String
  head_ref : String
  base_commit : String
  head_commit : String
  status : PRStatus
  created_at : Nat
  updated_at : Nat
deriving DecidableEq, Repr

/-- Diff snapshot owned by a PR (spec section 3, "DiffRevision"). -/
structure DiffRevision where
  revision_number : Nat
  diff_text : String
  head_commit : String
  created_at : Nat
deriving DecidableEq, Repr

/-- Line-anchored review comment (spec section 3, "Comment"). -/
structure Comment where
  uuid : Nat
  file_path : String
  line_number : Nat
  content : String
  resolved : Bool
deriving DecidableEq, Repr

/-- Modelled from the spec: persisted state of `claude_reviewer/database.py`
(not under src/).  Four logical collections keyed as in spec section 3;
`revisions` and `comments` associate each record with its owning PR's
identifier, and `nextId` models the storage layer's fresh-identifier
assignment. -/
structure DB where
  nextId : Nat
  prs : List PullRequest
  revisions : List (Nat × DiffRevision)
  comments : List (Nat × Comment)
deriving DecidableEq, Repr

/-- Storage error kinds relevant to the storage operations (spec section 7). -/
inductive DbErr where
  | validationError
  | notFound
deriving DecidableEq, Repr

/-- Modelled from the spec: `database.get_pr_by_uuid` (spec section 4.1,
`getPRByUUID(id) -> PR | not found`). -/
def get_pr_by_uuid (db : DB) (id : Nat) : Option PullRequest :=
  db.prs.find? (fun p => p.uuid == id)

/-- Status of a stored PR, when it exists. -/
def statusOf (db : DB) (id : Nat) : Option PRStatus :=
  (get_pr_by_uuid db id).map PullRequest.status

/-- Modelled from the spec: `database.get_comments` (spec section 4.1); the
`unresolvedOnly` filter is the predicate `resolved == false` applied at query
time (spec section 4.3). -/
def get_comments (db : DB) (id : Nat) (unresolvedOnly : Bool) : List Comment :=
  (db.comments.filter
    (fun c => c.1 == id && (!unresolvedOnly || !c.2.resolved))).map Prod.snd

/-- Sequence of revision numbers stored for a PR, in insertion order. -/
def revNums (db : DB) (id : Nat) : List Nat :=
  (db.revisions.filter (fun r => r.1 == id)).map
    (fun r => r.2.revision_number)

/-- Number of stored diff revisions of a PR. -/
def countRevs (db : DB) (id : Nat) : Nat :=
  (db.revisions.filter (fun r => r.1 == id)).length

/-- Modelled from the spec: `database.create_pr` (spec section 4.1,
`createPR(fields) -> uuid`): validates the title is non-empty, assigns a new
identifier and revision 1, persists PR + first DiffRevision atomically;
fails with `ValidationError` before reaching storage otherwise.  The new PR
starts in status PENDING (spec section 4.2, initial state). -/
def create_pr (db : DB) (repo_path title description base_ref head_ref
    base_commit head_commit diff : String) (now : Nat) :
    Except DbErr (Nat × DB) :=
  if title = "" then .error .validationError
  else
    let u := db.nextId
    .ok (u,
      { nextId := u + 1
        prs := db.prs ++
          [{ uuid := u, repo_path := repo_path, title := title
             description := description, base_ref := base_ref
             head_ref := head_ref, base_commit := base_commit
             head_commit := head_commit, status := PRStatus.pending
             created_at := now, updated_at := now }]
        revisions := db.revisions ++
          [(u, { revision_number := 1, diff_text := diff
                 head_commit := head_commit, created_at := now })]
        comments := db.comments })

/-- Modelled from the spec: `database.update_pr_diff` (spec section 4.1,
`updatePRDiff(id, diffText, headCommit) -> new revision number`): appends a
DiffRevision with the next revision number for the PR (strictly increasing
from 1, assigned by the storage layer), bumps `updated_at` and the stored
head commit, and returns the new revision number. -/
def update_pr_diff (db : DB) (id : Nat) (diff head_commit : String)
    (now : Nat) : Except DbErr (Nat × DB) :=
  match get_pr_by_uuid db id with
  | none => .error .notFound
  | some _ =>
    let n := countRevs db id + 1
    .ok (n,
      { db with
        revisions := db.revisions ++
          [(id, { revision_number := n, diff_text := diff
                  head_commit := head_commit, created_at := now })]
        prs := db.prs.map (fun p =>
          if p.uuid == id then
            { p with head_commit := head_commit, updated_at := now }
          else p) })

/-- Modelled from the spec: `database.update_pr_status` (spec section 4.1,
`updatePRStatus(id, newStatus)`): unconditional status write plus
`updated_at` bump; the storage layer performs no transition-legality checks
itself. -/
def update_pr_status (db : DB) (id : Nat) (st : PRStatus) (now : Nat) : DB :=
  { db with
    prs := db.prs.map (fun p =>
      if p.uuid == id then { p with status := st, updated_at := now }
      else p) }

/-- Result of a git merge / push / branch-delete call: a success flag and a
message (spec section 6). -/
structure GitResult where
  success : Bool
  message : String
deriving DecidableEq, Repr

/-- Modelled from the spec: the git collaborator interface
(`claude_reviewer/git_ops.py`, not under src/; spec section 6).  `commitSha`
returns `none` when the ref does not resolve (the collaborator's
`RefNotFound` failure); `diff` is total and possibly empty; the merge, push
and delete operations each return a success flag and message. -/
structure GitOps where
  current_branch : String
  commitSha : String → Option String
  diff : String → String → String
  hasUncommittedChanges : Bool
  mergeRes : GitResult
  pushRes : GitResult
  deleteRes : GitResult

/-- Error kinds of the core's public surface (spec section 7). -/
inductive ErrKind where
  | validationError
  | notFound
  | invalidTransition
  | preconditionFailed
  | collaboratorFailure
deriving DecidableEq, Repr

/-- Failure cases of the `create` CLI command, one per abort branch of
`cli.py` lines 56-109. -/
inductive CreateErr where
  | sameBranch (head base : String)
  | baseNotFound (base : String)
  | headNotFound (head : String)
  | emptyTitle
deriving DecidableEq, Repr

/-- Error kind of each `create` failure under the spec's taxonomy (spec
section 7: identical base/head refs and malformed input are
`ValidationError`; a ref lookup miss is `NotFound`). -/
def CreateErr.kind : CreateErr → ErrKind
  | .sameBranch _ _ => .validationError
  | .baseNotFound _ => .notFound
  | .headNotFound _ => .notFound
  | .emptyTitle => .validationError

/-- Outcome of the `create` CLI command. -/
inductive CreateResult where
  | created (uuid : Nat)
  | failed (e : CreateErr)
deriving DecidableEq, Repr

/-- Console warnings emitted by `create` (the "No changes between base and
head" message of `cli.py` line 81). -/
inductive CreateWarning where
  | noChanges (base head : String)
deriving DecidableEq, Repr

/-- The `create` CLI command (`cli.py` lines 47-109): resolve the head branch
(defaulting to the current branch), reject identical head/base, look up both
commit shas (aborting when the base or head ref does not resolve), compute
the diff (warning when it is blank), and persist through the storage layer.
Returns the outcome, the resulting store and the warnings printed. -/
def create (db : DB) (repo title description base : String)
    (head : Option String) (g : GitOps) (now : Nat) :
    CreateResult × DB × List CreateWarning :=
  let head_ref := head.getD g.current_branch
  if head_ref = base then (.failed (.sameBranch head_ref base), db, [])
  else
    match g.commitSha base with
    | none => (.failed (.baseNotFound base), db, [])
    | some base_commit =>
      match g.commitSha head_ref with
      | none => (.failed (.headNotFound head_ref), db, [])
      | some head_commit =>
        let diff := g.diff base head_ref
        let warns : List CreateWarning :=
          if diff.trim = "" then [.noChanges base head_ref] else []
        match create_pr db repo title description base head_ref base_commit
            head_commit diff now with
        | .error _ => (.failed .emptyTitle, db, warns)
        | .ok (u, db1) => (.created u, db1, warns)

/-- Outcome of the `update` CLI command. -/
inductive UpdateResult where
  | notFound
  | gitError
  | updated (revision : Nat)
deriving DecidableEq, Repr

/-- The `update` CLI command (`cli.py` lines 235-266): look up the PR,
recompute the diff between its stored base and head refs, capture the head
commit, append a diff revision through the storage layer, then reset the
status to PENDING for re-review.  No check of the PR's current status is
performed. -/
def update (db : DB) (prId : Nat) (g : GitOps) (now : Nat) :
    UpdateResult × DB :=
  match get_pr_by_uuid db prId with
  | none => (.notFound, db)
  | some pr =>
    let diff := g.diff pr.base_ref pr.head_ref
    match g.commitSha pr.head_ref with
    | none => (.gitError, db)
    | some head_commit =>
      match update_pr_diff db prId diff head_commit now with
      | .error _ => (.gitError, db)
      | .ok (rev, db1) =>
        (.updated rev, update_pr_status db1 prId .pending now)

/-- Failure cases of the `merge` CLI command, one per abort branch of
`cli.py` lines 276-333. -/
inductive MergeErr where
  | notFound
  | notApproved (current : PRStatus)
  | uncommittedChanges
  | mergeFailed (message : String)
deriving DecidableEq, Repr

/-- Outcome of the `merge` CLI command. -/
inductive MergeOutcome where
  | failed (e : MergeErr)
  | merged
deriving DecidableEq, Repr

/-- Console warnings emitted by `merge` after a successful git merge step.
The only yellow warning printed in `cli.py` lines 307-319 is the push
failure; a failed branch deletion prints nothing. -/
inductive MergeWarning where
  | pushFailed (message : String)
deriving DecidableEq, Repr

/-- The `merge` CLI command (`cli.py` lines 276-333): look up the PR, require
status APPROVED, require no uncommitted changes, run the git merge and abort
on its failure; then best-effort push (failure printed as a warning) and
best-effort branch deletion (its failure prints nothing), and finally set the
stored status to MERGED. -/
def merge (db : DB) (prId : Nat) (push delete_branch : Bool) (g : GitOps)
    (now : Nat) : MergeOutcome × DB × List MergeWarning :=
  match get_pr_by_uuid db prId with
  | none => (.failed .notFound, db, [])
  | some pr =>
    if pr.status = PRStatus.approved then
      if g.hasUncommittedChanges then
        (.failed .uncommittedChanges, db, [])
      else if g.mergeRes.success then
        let warns : List MergeWarning :=
          if push && !g.pushRes.success then
            [.pushFailed g.pushRes.message]
          else []
        (.merged, update_pr_status db prId .merged now, warns)
      else (.failed (.mergeFailed g.mergeRes.message), db, [])
    else (.failed (.notApproved pr.status), db, [])

/-- Target condition of the `watch` CLI command's `--until` option
(`cli.py` lines 628-634). -/
inductive WatchUntil where
  | approved
  | changes_requested
  | feedback_given
  | pending
  | any_change
deriving DecidableEq, Repr

/-- Outcome of the watch loop. -/
inductive WatchOutcome where
  | timedOut
  | prGone
  | success (st : PRStatus) (comments : List Comment)
  | exhausted
deriving DecidableEq, Repr

/-- One status check of the watch loop body (`cli.py` lines 692-753): given
the target condition, the captured baseline `(initial_status,
initial_updated_at)`, the polled PR's status and `updated_at`, and the PR's
current unresolved comments, decide whether the loop terminates successfully
and what it surfaces.  Unresolved comments are surfaced for `any_change`,
for `feedback_given` terminating on CHANGES_REQUESTED, and for the specific
target `changes_requested`; the remaining successes surface none. -/
def watchCheck (untl : WatchUntil) (base : PRStatus × Nat) (st : PRStatus)
    (updated : Nat) (unresolved : List Comment) :
    Option (PRStatus × List Comment) :=
  match untl with
  | .any_change =>
    if st ≠ base.1 ∨ updated ≠ base.2 then some (st, unresolved) else none
  | .feedback_given =>
    if st = .approved then some (st, [])
    else if st = .changes_requested then some (st, unresolved)
    else none
  | .approved => if st = .approved then some (st, []) else none
  | .changes_requested =>
    if st = .changes_requested then some (st, unresolved) else none
  | .pending => if st = .pending then some (st, []) else none

/-- The watch polling loop of the `watch` CLI command (`cli.py` lines
670-753), driven by the sequence of polls it will perform: each poll carries
the elapsed time at that iteration and the store state it observes.  Per
iteration: the timeout check fires first (only when a positive timeout is
exceeded), then a vanished PR terminates the watch, then the target
condition is checked; otherwise the loop continues.  `exhausted` marks the
model's poll sequence running out (the real loop would keep polling). -/
def watch (prId : Nat) (untl : WatchUntil) (timeout : Nat)
    (base : PRStatus × Nat) : List (Nat × DB) → WatchOutcome
  | [] => .exhausted
  | (elapsed, db) :: rest =>
    if 0 < timeout ∧ timeout < elapsed then .timedOut
    else
      match get_pr_by_uuid db prId with
      | none => .prGone
      | some pr =>
        match watchCheck untl base pr.status pr.updated_at
            (get_comments db prId true) with
        | some (st, cs) => .success st cs
        | none => watch prId untl timeout base rest

/-- Concrete PR fixture used to exercise the operations. -/
def pr1 (st : PRStatus) : PullRequest :=
  { uuid := 1, repo_path := "/repo", title := "T", description := ""
    base_ref := "main", head_ref := "feat", base_commit := "b0"
    head_commit := "h0", status := st, created_at := 0, updated_at := 0 }

/-- Concrete store fixture: one PR with the given status and its initial
diff revision. -/
def db1 (st : PRStatus) : DB :=
  { nextId := 2, prs := [pr1 st]
    revisions := [(1, { revision_number := 1, diff_text := "d"
                        head_commit := "h0", created_at := 0 })]
    comments := [] }

/-- Concrete git collaborator fixture where every operation succeeds. -/
def gOk : GitOps :=
  { current_branch := "feat", commitSha := fun _ => some "h1"
    diff := fun _ _ => "dd", hasUncommittedChanges := false
    mergeRes := { success := true, message := "m" }
    pushRes := { success := true, message := "p" }
    deleteRes := { success := true, message := "del" } }

/-- Git collaborator fixture where no ref resolves. -/
def gNoRefs : GitOps := { gOk with commitSha := fun _ => none }

/-- Git collaborator fixture where branch deletion fails. -/
def gDelFail : GitOps :=
  { gOk with deleteRes := { success := false, message := "no such branch" } }

/-- Git collaborator fixture returning a whitespace-only diff. -/
def gBlank : GitOps := { gOk with diff := fun _ _ => "  \n" }

/-! ### Helper lemmas about the storage layer -/

/-- Finding a PR by identifier commutes with mapping an identifier-preserving
update over the matching entries of the store. -/
theorem find_uuid_map (l : List PullRequest) (id : Nat)
    (f : PullRequest → PullRequest) (hf : ∀ p, (f p).uuid = p.uuid) :
    (l.map (fun p => if p.uuid == id then f p else p)).find?
        (fun p => p.uuid == id)
      = (l.find? (fun p => p.uuid == id)).map f := by
  induction l with
  | nil => rfl
  | cons a l ih =>
    by_cases h : a.uuid = id
    · have hb : (a.uuid == id) = true := by simp [h]
      have hfb : ((f a).uuid == id) = true := by simp [hf, h]
      rw [List.map_cons, if_pos hb,
        List.find?_cons_of_pos (p := fun q : PullRequest => q.uuid == id) _ hfb,
        List.find?_cons_of_pos (p := fun q : PullRequest => q.uuid == id) _ hb,
        Option.map_some']
    · have hb : ¬ (a.uuid == id) = true := by simp [h]
      rw [List.map_cons, if_neg hb,
        List.find?_cons_of_neg (p := fun q : PullRequest => q.uuid == id) _ hb,
        List.find?_cons_of_neg (p := fun q : PullRequest => q.uuid == id) _ hb, ih]

/-- Reading a PR after `update_pr_status` sees the written status. -/
theorem get_pr_by_uuid_update_pr_status (db : DB) (id : Nat) (st : PRStatus)
    (now : Nat) :
    get_pr_by_uuid (update_pr_status db id st now) id
      = (get_pr_by_uuid db id).map
          (fun p => { p with status := st, updated_at := now }) := by
  unfold get_pr_by_uuid update_pr_status
  exact find_uuid_map db.prs id _ (fun p => rfl)

/-- The `update_pr_status` operation does not touch the revision store. -/
theorem countRevs_update_pr_status (db : DB) (id : Nat) (st : PRStatus)
    (now id' : Nat) :
    countRevs (update_pr_status db id st now) id' = countRevs db id' := rfl

/-- The number of stored revisions of a PR is the length of its
revision-number sequence. -/
theorem countRevs_eq_length_revNums (db : DB) (id : Nat) :
    countRevs db id = (revNums db id).length := by
  simp [countRevs, revNums]

/-- Characterization of a successful `update_pr_diff` call: when the PR
exists, the call returns the next revision number for the PR, the PR stays
readable (with bumped head commit and timestamp), and exactly one revision
with that number is appended to the PR's revision sequence. -/
theorem update_pr_diff_ok (db : DB) (id : Nat) (diff hc : String)
    (now : Nat) (pr : PullRequest)
    (hpr : get_pr_by_uuid db id = some pr) :
    ∃ db', update_pr_diff db id diff hc now
        = .ok (countRevs db id + 1, db')
      ∧ get_pr_by_uuid db' id
          = some { pr with head_commit := hc, updated_at := now }
      ∧ countRevs db' id = countRevs db id + 1
      ∧ revNums db' id = revNums db id ++ [countRevs db id + 1] := by
  unfold update_pr_diff
  rw [hpr]
  refine ⟨_, rfl, ?_, ?_, ?_⟩
  · have h2 : (db.prs.map (fun p =>
        if p.uuid == id then
          { p with head_commit := hc, updated_at := now }
        else p)).find? (fun p => p.uuid == id)
        = (db.prs.find? (fun p => p.uuid == id)).map
            (fun p => { p with head_commit := hc, updated_at := now }) :=
      find_uuid_map db.prs id _ (fun p => rfl)
    show (db.prs.map _).find? _ = _
    rw [h2, show db.prs.find? (fun p => p.uuid == id) = some pr from hpr,
      Option.map_some']
  · simp [countRevs, List.filter_append]
  · simp [revNums, List.filter_append]

/-- Characterization of a successful `update` command: when the PR exists
and its head ref resolves, the command appends one diff revision (returning
the next revision number) and the resulting store reads the PR with status
PENDING. -/
theorem update_ok (db : DB) (prId : Nat) (g : GitOps)
    (now : Nat) (pr : PullRequest) (hc : String)
    (hpr : get_pr_by_uuid db prId = some pr)
    (hsha : g.commitSha pr.head_ref = some hc) :
    ∃ db', update db prId g now = (.updated (countRevs db prId + 1), db')
      ∧ statusOf db' prId = some .pending
      ∧ countRevs db' prId = countRevs db prId + 1 := by
  obtain ⟨dbd, hdiff, hget, hcount, _⟩ :=
    update_pr_diff_ok db prId (g.diff pr.base_ref pr.head_ref) hc now pr hpr
  refine ⟨update_pr_status dbd prId .pending now, ?_, ?_, ?_⟩
  · simp [update, hpr, hsha, hdiff]
  · simp [statusOf, get_pr_by_uuid_update_pr_status, hget]
  · rw [countRevs_update_pr_status, hcount]

/-! ### C3 — update appends a revision and resets status to PENDING -/

/-- C3: for every existing PR (whose head ref resolves), the `update`
command succeeds, appending one diff revision and returning the next
revision number, and a status read on the resulting store yields PENDING
regardless of the status the PR had before. -/
theorem update_resets_status_to_pending (db : DB) (prId : Nat) (g : GitOps)
    (now : Nat) (pr : PullRequest) (hc : String)
    (hpr : get_pr_by_uuid db prId = some pr)
    (hsha : g.commitSha pr.head_ref = some hc) :
    ∃ db', update db prId g now = (.updated (countRevs db prId + 1), db')
      ∧ statusOf db' prId = some .pending
      ∧ countRevs db' prId = countRevs db prId + 1 :=
  update_ok db prId g now pr hc hpr hsha

/-- Witness for C3: updating the fixture PR while it is APPROVED succeeds
and leaves it PENDING with a second revision. -/
theorem update_resets_status_to_pending_witness :
    ∃ db', update (db1 .approved) 1 gOk 5
        = (.updated (countRevs (db1 .approved) 1 + 1), db')
      ∧ statusOf db' 1 = some .pending
      ∧ countRevs db' 1 = countRevs (db1 .approved) 1 + 1 :=
  update_resets_status_to_pending (db1 .approved) 1 gOk 5 (pr1 .approved)
    "h1" rfl rfl

/-! ### C1 — merge preconditions and failure atomicity -/

/-- C1: every failing branch of the `merge` command leaves the store (hence
the PR's status) unchanged, and the merge succeeds exactly when the PR
exists with status APPROVED, the working tree has no uncommitted changes,
and the git merge step reports success. -/
theorem merge_succeeds_iff_approved_and_clean (db : DB) (prId : Nat)
    (push delete_branch : Bool) (g : GitOps) (now : Nat) :
    (∀ e, (merge db prId push delete_branch g now).1 = .failed e →
      (merge db prId push delete_branch g now).2.1 = db)
    ∧ ((merge db prId push delete_branch g now).1 = .merged ↔
        ∃ pr, get_pr_by_uuid db prId = some pr ∧ pr.status = .approved
          ∧ g.hasUncommittedChanges = false ∧ g.mergeRes.success = true) := by
  rcases hpr : get_pr_by_uuid db prId with _ | pr
  · simp [merge, hpr]
  · by_cases hst : pr.status = PRStatus.approved
    · by_cases hunc : g.hasUncommittedChanges = true
      · simp [merge, hpr, hst, hunc]
      · by_cases hm : g.mergeRes.success = true
        · simp [merge, hpr, hst, hunc, hm]
        · simp [merge, hpr, hst, hunc, hm]
    · simp [merge, hpr, hst]

/-- Witness for C1: merging the approved fixture PR with a clean tree and a
successful git merge step succeeds. -/
theorem merge_succeeds_iff_approved_and_clean_witness :
    (merge (db1 .approved) 1 true false gOk 5).1 = .merged :=
  (merge_succeeds_iff_approved_and_clean (db1 .approved) 1 true false
    gOk 5).2.mpr ⟨pr1 .approved, rfl, rfl, rfl, rfl⟩

/-! ### C2 — MERGED and CLOSED are not absorbing under `update` -/

/-- Counterexample to C2 as stated: it is not the case that every attempt to
mutate a MERGED (or CLOSED) PR is a failing or status-preserving no-op — the
`update` command performs no status check, so updating the merged fixture PR
succeeds and moves its status away from MERGED. -/
theorem merged_absorbing_counterexample :
    ¬ (∀ (db : DB) (prId : Nat) (g : GitOps) (now : Nat) (pr : PullRequest),
        get_pr_by_uuid db prId = some pr →
        (pr.status = .merged ∨ pr.status = .closed) →
        ((update db prId g now).1 = .notFound
          ∨ (update db prId g now).1 = .gitError
          ∨ statusOf (update db prId g now).2 prId = some pr.status)) := by
  intro h
  have hinst := h (db1 .merged) 1 gOk 5 (pr1 .merged) rfl (Or.inl rfl)
  revert hinst
  decide

/-- C2 amended: MERGED and CLOSED are absorbing only for the `merge`
command, which rejects them without mutating the store; the `update` command
is not guarded by status and moves a MERGED or CLOSED PR back to PENDING
while appending a diff revision. -/
theorem merged_closed_amended (db : DB) (prId : Nat) (push del : Bool)
    (g : GitOps) (now : Nat) (pr : PullRequest)
    (hpr : get_pr_by_uuid db prId = some pr)
    (hst : pr.status = .merged ∨ pr.status = .closed) :
    ((merge db prId push del g now).1 = .failed (.notApproved pr.status)
      ∧ (merge db prId push del g now).2.1 = db)
    ∧ (∀ hc, g.commitSha pr.head_ref = some hc →
        ∃ db', update db prId g now
            = (.updated (countRevs db prId + 1), db')
          ∧ statusOf db' prId = some .pending) := by
  have hne : ¬ pr.status = PRStatus.approved := by
    rcases hst with h | h <;> simp [h]
  constructor
  · constructor
    · simp [merge, hpr, hne]
    · simp [merge, hpr, hne]
  · intro hc hsha
    obtain ⟨db', h1, h2, _⟩ := update_ok db prId g now pr hc hpr hsha
    exact ⟨db', h1, h2⟩

/-- Witness for the amended C2, at the merged fixture PR. -/
theorem merged_closed_amended_witness :
    ((merge (db1 .merged) 1 true false gOk 5).1
        = .failed (.notApproved (pr1 .merged).status)
      ∧ (merge (db1 .merged) 1 true false gOk 5).2.1 = db1 .merged)
    ∧ (∃ db', update (db1 .merged) 1 gOk 5
          = (.updated (countRevs (db1 .merged) 1 + 1), db')
        ∧ statusOf db' 1 = some .pending) :=
  ⟨(merged_closed_amended (db1 .merged) 1 true false gOk 5 (pr1 .merged)
      rfl (Or.inl rfl)).1,
    (merged_closed_amended (db1 .merged) 1 true false gOk 5 (pr1 .merged)
      rfl (Or.inl rfl)).2 "h1" rfl⟩

/-! ### C4 — empty-title creation fails, but not always with ValidationError -/

/-- Counterexample to C4 as stated: an empty-title create call does not
always fail with a `ValidationError` — when the base ref does not resolve,
the base-not-found abort (a `NotFound`-kind error) fires before the title is
ever validated. -/
theorem create_empty_title_counterexample :
    ¬ (∀ (db : DB) (repo desc base : String) (head : Option String)
        (g : GitOps) (now : Nat),
        ∃ e, (create db repo "" desc base head g now).1 = .failed e
          ∧ e.kind = .validationError) := by
  intro h
  obtain ⟨e, he, hk⟩ := h (db1 .pending) "/r" "" "main" (some "feat")
    gNoRefs 0
  have h3 : (create (db1 .pending) "/r" "" "" "main" (some "feat")
      gNoRefs 0).1 = .failed (.baseNotFound "main") := by decide
  rw [h3] at he
  cases he
  simp [CreateErr.kind] at hk

/-- C4 amended: every create call with an empty title fails before anything
is persisted (the store is returned unchanged and no PR is created); when
the resolved head differs from the base and both refs resolve, the failure
is the storage layer's empty-title `ValidationError`, while an earlier
guard (identical refs, unresolvable ref) otherwise fails first with its own
error kind. -/
theorem create_empty_title_amended (db : DB) (repo desc base : String)
    (head : Option String) (g : GitOps) (now : Nat) :
    ((create db repo "" desc base head g now).2.1 = db
      ∧ ∀ u, (create db repo "" desc base head g now).1 ≠ .created u)
    ∧ (head.getD g.current_branch ≠ base →
        ∀ bc, g.commitSha base = some bc →
        ∀ hcc, g.commitSha (head.getD g.current_branch) = some hcc →
        (create db repo "" desc base head g now).1 = .failed .emptyTitle
          ∧ CreateErr.kind .emptyTitle = .validationError) := by
  by_cases hsame : head.getD g.current_branch = base
  · refine ⟨⟨?_, ?_⟩, ?_⟩
    · simp [create, hsame]
    · intro u
      simp [create, hsame]
    · intro hne
      exact absurd hsame hne
  · rcases hbase : g.commitSha base with _ | bc
    · refine ⟨⟨?_, ?_⟩, ?_⟩
      · simp [create, hsame, hbase]
      · intro u
        simp [create, hsame, hbase]
      · intro _ bc' hbc' _ _
        exact Option.noConfusion hbc'
    · rcases hhead : g.commitSha (head.getD g.current_branch) with _ | hcc
      · refine ⟨⟨?_, ?_⟩, ?_⟩
        · simp [create, hsame, hbase, hhead]
        · intro u
          simp [create, hsame, hbase, hhead]
        · intro _ _ _ hcc' hhc'
          exact Option.noConfusion hhc'
      · refine ⟨⟨?_, ?_⟩, ?_⟩
        · simp [create, hsame, hbase, hhead, create_pr]
        · intro u
          simp [create, hsame, hbase, hhead, create_pr]
        · intro _ _ _ _ _
          exact ⟨by simp [create, hsame, hbase, hhead, create_pr], rfl⟩

/-- Witness for the amended C4: with resolvable, distinct refs the
empty-title create call fails with the storage validation error and the
store is unchanged. -/
theorem create_empty_title_amended_witness :
    ((create (db1 .pending) "/r" "" "" "main" none gOk 0).2.1 = db1 .pending
      ∧ ∀ u, (create (db1 .pending) "/r" "" "" "main" none gOk 0).1
          ≠ .created u)
    ∧ ((create (db1 .pending) "/r" "" "" "main" none gOk 0).1
          = .failed .emptyTitle
        ∧ CreateErr.kind .emptyTitle = .validationError) :=
  ⟨(create_empty_title_amended (db1 .pending) "/r" "" "main" none gOk 0).1,
    (create_empty_title_amended (db1 .pending) "/r" "" "main" none gOk 0).2
      (by decide) "h1" rfl "h1" rfl⟩

/-! ### C5 — identical head and base refs are rejected before persistence -/

/-- C5: whenever the resolved head branch equals the base branch, `create`
fails at its first guard — a `ValidationError`-kind abort — returning the
store unchanged, so no record is ever persisted with `head_ref = base_ref`.
-/
theorem create_same_branch_validation (db : DB)
    (repo title desc base : String) (head : Option String) (g : GitOps)
    (now : Nat) (h : head.getD g.current_branch = base) :
    (create db repo title desc base head g now)
        = (.failed (.sameBranch base base), db, [])
      ∧ CreateErr.kind (.sameBranch base base) = .validationError := by
  constructor
  · simp [create, h]
  · rfl

/-- Witness for C5: creating with head and base both `main` is rejected. -/
theorem create_same_branch_validation_witness :
    (create (db1 .pending) "/r" "T" "" "main" (some "main") gOk 0)
        = (.failed (.sameBranch "main" "main"), db1 .pending, [])
      ∧ CreateErr.kind (.sameBranch "main" "main") = .validationError :=
  create_same_branch_validation (db1 .pending) "/r" "T" "" "main"
    (some "main") gOk 0 rfl

/-! ### C6 — post-merge steps are best-effort, but deletion fails silently -/

/-- Counterexample to C6 as stated: the failure of a requested branch
deletion is not reported as a warning — with the push succeeding and the
deletion failing, the merge emits no warning at all. -/
theorem merge_delete_warning_counterexample :
    ¬ (∀ (db : DB) (prId : Nat) (g : GitOps) (now : Nat)
        (pr : PullRequest),
        get_pr_by_uuid db prId = some pr → pr.status = .approved →
        g.hasUncommittedChanges = false → g.mergeRes.success = true →
        g.deleteRes.success = false →
        (merge db prId true true g now).2.2 ≠ []) := by
  intro h
  exact h (db1 .approved) 1 gDelFail 5 (pr1 .approved) rfl rfl rfl rfl rfl
    (by decide)

/-- C6 amended: once the git merge step succeeds, the PR's status is set to
MERGED regardless of the push and branch-deletion flags and results; a
failed push is reported as a warning, while a failed branch deletion
produces no output at all — neither prevents nor rolls back the MERGED
status. -/
theorem merge_post_steps_amended (db : DB) (prId : Nat)
    (push del : Bool) (g : GitOps) (now : Nat) (pr : PullRequest)
    (hpr : get_pr_by_uuid db prId = some pr)
    (hst : pr.status = .approved)
    (hunc : g.hasUncommittedChanges = false)
    (hm : g.mergeRes.success = true) :
    (merge db prId push del g now).1 = .merged
    ∧ statusOf (merge db prId push del g now).2.1 prId = some .merged
    ∧ (merge db prId push del g now).2.2
        = (if push && !g.pushRes.success then
            [.pushFailed g.pushRes.message] else []) := by
  have hm1 : merge db prId push del g now
      = (.merged, update_pr_status db prId .merged now,
        if push && !g.pushRes.success then
          [.pushFailed g.pushRes.message] else []) := by
    simp [merge, hpr, hst, hunc, hm]
  rw [hm1]
  refine ⟨rfl, ?_, rfl⟩
  simp [statusOf, get_pr_by_uuid_update_pr_status, hpr]

/-- Witness for the amended C6: with the branch deletion requested and
failing (push succeeding), the merge still completes, the status becomes
MERGED, and no warning is emitted. -/
theorem merge_post_steps_amended_witness :
    (merge (db1 .approved) 1 true true gDelFail 5).1 = .merged
    ∧ statusOf (merge (db1 .approved) 1 true true gDelFail 5).2.1 1
        = some .merged
    ∧ (merge (db1 .approved) 1 true true gDelFail 5).2.2
        = (if true && !gDelFail.pushRes.success then
            [.pushFailed gDelFail.pushRes.message] else []) :=
  merge_post_steps_amended (db1 .approved) 1 true true gDelFail 5
    (pr1 .approved) rfl rfl rfl rfl

/-! ### C7 — revision numbers are 1, 2, 3, … with no gaps or reuse -/

/-- C7: revision numbers of a PR form the gap-free strictly increasing
sequence 1, …, n: creation persists exactly revision 1 for the fresh PR,
and whenever a PR's stored revision-number sequence is 1, …, n, a
successful `update_pr_diff` returns n + 1 and extends the sequence to
1, …, n + 1 — numbers are never reused. -/
theorem revision_numbers_strictly_increasing (db : DB) (id n : Nat)
    (diff hc : String) (now : Nat) (pr : PullRequest)
    (hpr : get_pr_by_uuid db id = some pr)
    (hinv : revNums db id = List.range' 1 n)
    (db2 : DB) (repo title desc base headr bc hc2 diff2 : String)
    (now2 : Nat) (htitle : ¬ title = "")
    (hfresh : ∀ r ∈ db2.revisions, r.1 ≠ db2.nextId) :
    (∃ db', update_pr_diff db id diff hc now = .ok (n + 1, db')
      ∧ revNums db' id = List.range' 1 (n + 1))
    ∧ (∃ db', create_pr db2 repo title desc base headr bc hc2 diff2 now2
          = .ok (db2.nextId, db')
      ∧ revNums db' db2.nextId = [1]) := by
  have hcount : countRevs db id = n := by
    rw [countRevs_eq_length_revNums, hinv, List.length_range']
  constructor
  · obtain ⟨db', h1, _, _, h4⟩ := update_pr_diff_ok db id diff hc now pr hpr
    refine ⟨db', ?_, ?_⟩
    · rw [h1, hcount]
    · rw [h4, hinv, hcount, List.range'_concat 1 n]
      congr 1
      simp [Nat.add_comm]
  · have hnil : db2.revisions.filter (fun r => r.1 == db2.nextId) = [] :=
      List.filter_eq_nil_iff.mpr (by
        intro a ha
        simpa using hfresh a ha)
    unfold create_pr
    rw [if_neg htitle]
    refine ⟨_, rfl, ?_⟩
    simp [revNums, List.filter_append, hnil]

/-- Witness for C7 at the fixture store (one stored revision, so n = 1):
the update returns revision 2 and creation of a fresh PR yields revision
sequence [1]. -/
theorem revision_numbers_strictly_increasing_witness :
    (∃ db', update_pr_diff (db1 .pending) 1 "nd" "h2" 7 = .ok (1 + 1, db')
      ∧ revNums db' 1 = List.range' 1 (1 + 1))
    ∧ (∃ db', create_pr (db1 .pending) "/r" "T2" "" "main" "feat2" "b1"
          "h3" "d2" 9 = .ok ((db1 .pending).nextId, db')
      ∧ revNums db' (db1 .pending).nextId = [1]) :=
  revision_numbers_strictly_increasing (db1 .pending) 1 1 "nd" "h2" 7
    (pr1 .pending) rfl (by decide) (db1 .pending) "/r" "T2" "" "main"
    "feat2" "b1" "h3" "d2" 9 (by decide) (by decide)

/-! ### C10 — creation succeeds even on an empty or whitespace-only diff -/

/-- C10: a create call with a non-empty title, distinct resolved head and
base, and resolvable refs always succeeds — the PR is persisted with status
PENDING and revision sequence [1] — no matter what diff text the git
collaborator returns; a blank diff merely adds the no-changes warning. -/
theorem create_blank_diff_succeeds (db : DB)
    (repo title desc base : String) (head : Option String) (g : GitOps)
    (now : Nat) (bc hcc : String)
    (htitle : ¬ title = "")
    (hsame : ¬ head.getD g.current_branch = base)
    (hbase : g.commitSha base = some bc)
    (hhead : g.commitSha (head.getD g.current_branch) = some hcc)
    (hfreshPr : ∀ p ∈ db.prs, p.uuid ≠ db.nextId)
    (hfreshRev : ∀ r ∈ db.revisions, r.1 ≠ db.nextId) :
    ∃ db', create db repo title desc base head g now
        = (.created db.nextId, db',
          if (g.diff base (head.getD g.current_branch)).trim = ""
          then [.noChanges base (head.getD g.current_branch)] else [])
      ∧ statusOf db' db.nextId = some .pending
      ∧ revNums db' db.nextId = [1] := by
  have h1 : create db repo title desc base head g now
      = (.created db.nextId,
        { nextId := db.nextId + 1
          prs := db.prs ++
            [{ uuid := db.nextId, repo_path := repo, title := title
               description := desc, base_ref := base
               head_ref := head.getD g.current_branch, base_commit := bc
               head_commit := hcc, status := PRStatus.pending
               created_at := now, updated_at := now }]
          revisions := db.revisions ++
            [(db.nextId,
              { revision_number := 1
                diff_text := g.diff base (head.getD g.current_branch)
                head_commit := hcc, created_at := now })]
          comments := db.comments },
        if (g.diff base (head.getD g.current_branch)).trim = ""
        then [.noChanges base (head.getD g.current_branch)] else []) := by
    simp [create, create_pr, hsame, hbase, hhead, htitle]
  refine ⟨_, h1, ?_, ?_⟩
  · have hnone : db.prs.find? (fun p => p.uuid == db.nextId) = none :=
      List.find?_eq_none.mpr (by
        intro p hp
        simpa using hfreshPr p hp)
    simp [statusOf, get_pr_by_uuid, List.find?_append, hnone]
  · have hnil : db.revisions.filter (fun r => r.1 == db.nextId) = [] :=
      List.filter_eq_nil_iff.mpr (by
        intro a ha
        simpa using hfreshRev a ha)
    simp [revNums, List.filter_append, hnil]

/-- Witness for C10: with a whitespace-only diff the fixture create call
succeeds (status PENDING, revision [1]) and emits the no-changes warning. -/
theorem create_blank_diff_succeeds_witness :
    ∃ db', create (db1 .pending) "/r" "T" "" "main" none gBlank 3
        = (.created (db1 .pending).nextId, db',
          if (gBlank.diff "main"
              ((none : Option String).getD gBlank.current_branch)).trim = ""
          then [.noChanges "main"
              ((none : Option String).getD gBlank.current_branch)] else [])
      ∧ statusOf db' (db1 .pending).nextId = some .pending
      ∧ revNums db' (db1 .pending).nextId = [1] :=
  create_blank_diff_succeeds (db1 .pending) "/r" "T" "" "main" none
    gBlank 3 "h1" "h1" (by decide) (by decide) rfl rfl (by decide)
    (by decide)

/-! ### C8 — watch with until = feedback_given -/

/-- C8: with the default `feedback_given` target and no timeout, the watch
loop over polls that always find the PR terminates successfully exactly
when a polled status is APPROVED or CHANGES_REQUESTED; an APPROVED
termination surfaces no comments while a CHANGES_REQUESTED termination
surfaces the unresolved-comment set of the store it polled. -/
theorem watch_feedback_given_characterization (prId : Nat)
    (base : PRStatus × Nat) (polls : List (Nat × DB))
    (hlive : ∀ p ∈ polls, (statusOf p.2 prId).isSome = true) :
    (∀ st cs, watch prId .feedback_given 0 base polls = .success st cs →
      ((st = .approved ∧ cs = []
          ∧ ∃ p ∈ polls, statusOf p.2 prId = some .approved)
        ∨ (st = .changes_requested
          ∧ ∃ p ∈ polls, statusOf p.2 prId = some .changes_requested
              ∧ cs = get_comments p.2 prId true)))
    ∧ ((∃ p ∈ polls, statusOf p.2 prId = some .approved
          ∨ statusOf p.2 prId = some .changes_requested) →
        ∃ st cs, watch prId .feedback_given 0 base polls = .success st cs
          ∧ (st = .approved ∨ st = .changes_requested)) := by
  induction polls with
  | nil =>
    constructor
    · intro st cs h
      simp [watch] at h
    · rintro ⟨p, hp, _⟩
      simp at hp
  | cons q rest ih =>
    obtain ⟨e, db⟩ := q
    have hq : (statusOf db prId).isSome = true := hlive (e, db) (by simp)
    rcases hpr : get_pr_by_uuid db prId with _ | pr
    · rw [statusOf, hpr] at hq
      simp at hq
    · have hrest := ih (fun p hp => hlive p (List.mem_cons_of_mem _ hp))
      have hsof : statusOf db prId = some pr.status := by
        rw [statusOf, hpr]
        rfl
      cases hst : pr.status with
      | approved =>
        have hw2 : watch prId .feedback_given 0 base ((e, db) :: rest)
            = .success .approved [] := by
          simp [watch, hpr, watchCheck, hst]
        constructor
        · intro st cs h
          rw [hw2] at h
          injection h.symm with h1 h2
          subst h1
          subst h2
          exact Or.inl ⟨rfl, rfl,
            ⟨(e, db), by simp, by rw [hsof, hst]⟩⟩
        · intro _
          exact ⟨.approved, [], hw2, Or.inl rfl⟩
      | changes_requested =>
        have hw2 : watch prId .feedback_given 0 base ((e, db) :: rest)
            = .success .changes_requested (get_comments db prId true) := by
          simp [watch, hpr, watchCheck, hst]
        constructor
        · intro st cs h
          rw [hw2] at h
          injection h.symm with h1 h2
          subst h1
          subst h2
          exact Or.inr ⟨rfl,
            ⟨(e, db), by simp, by rw [hsof, hst], rfl⟩⟩
        · intro _
          exact ⟨.changes_requested, get_comments db prId true, hw2,
            Or.inr rfl⟩
      | pending =>
        have hw2 : watch prId .feedback_given 0 base ((e, db) :: rest)
            = watch prId .feedback_given 0 base rest := by
          simp [watch, hpr, watchCheck, hst]
        constructor
        · intro st cs h
          rw [hw2] at h
          rcases hrest.1 st cs h with ⟨h1, h2, p, hp, h3⟩ | ⟨h1, p, hp, h3⟩
          · exact Or.inl ⟨h1, h2, p, List.mem_cons_of_mem _ hp, h3⟩
          · exact Or.inr ⟨h1, p, List.mem_cons_of_mem _ hp, h3⟩
        · rintro ⟨p, hp, hps⟩
          rcases List.mem_cons.mp hp with rfl | hp'
          · rw [hsof, hst] at hps
            rcases hps with h | h <;> exact Option.noConfusion h
              (fun h => PRStatus.noConfusion h)
          · obtain ⟨st, cs, hsucc, hor⟩ := hrest.2 ⟨p, hp', hps⟩
            exact ⟨st, cs, by rw [hw2]; exact hsucc, hor⟩
      | merged =>
        have hw2 : watch prId .feedback_given 0 base ((e, db) :: rest)
            = watch prId .feedback_given 0 base rest := by
          simp [watch, hpr, watchCheck, hst]
        constructor
        · intro st cs h
          rw [hw2] at h
          rcases hrest.1 st cs h with ⟨h1, h2, p, hp, h3⟩ | ⟨h1, p, hp, h3⟩
          · exact Or.inl ⟨h1, h2, p, List.mem_cons_of_mem _ hp, h3⟩
          · exact Or.inr ⟨h1, p, List.mem_cons_of_mem _ hp, h3⟩
        · rintro ⟨p, hp, hps⟩
          rcases List.mem_cons.mp hp with rfl | hp'
          · rw [hsof, hst] at hps
            rcases hps with h | h <;> exact Option.noConfusion h
              (fun h => PRStatus.noConfusion h)
          · obtain ⟨st, cs, hsucc, hor⟩ := hrest.2 ⟨p, hp', hps⟩
            exact ⟨st, cs, by rw [hw2]; exact hsucc, hor⟩
      | closed =>
        have hw2 : watch prId .feedback_given 0 base ((e, db) :: rest)
            = watch prId .feedback_given 0 base rest := by
          simp [watch, hpr, watchCheck, hst]
        constructor
        · intro st cs h
          rw [hw2] at h
          rcases hrest.1 st cs h with ⟨h1, h2, p, hp, h3⟩ | ⟨h1, p, hp, h3⟩
          · exact Or.inl ⟨h1, h2, p, List.mem_cons_of_mem _ hp, h3⟩
          · exact Or.inr ⟨h1, p, List.mem_cons_of_mem _ hp, h3⟩
        · rintro ⟨p, hp, hps⟩
          rcases List.mem_cons.mp hp with rfl | hp'
          · rw [hsof, hst] at hps
            rcases hps with h | h <;> exact Option.noConfusion h
              (fun h => PRStatus.noConfusion h)
          · obtain ⟨st, cs, hsucc, hor⟩ := hrest.2 ⟨p, hp', hps⟩
            exact ⟨st, cs, by rw [hw2]; exact hsucc, hor⟩

/-- Witness for C8: a poll sequence that first sees PENDING and then
CHANGES_REQUESTED terminates the watch with a feedback success. -/
theorem watch_feedback_given_characterization_witness :
    ∃ st cs, watch 1 .feedback_given 0 (.pending, 0)
        [(2, db1 .pending), (4, db1 .changes_requested)] = .success st cs
      ∧ (st = .approved ∨ st = .changes_requested) :=
  (watch_feedback_given_characterization 1 (.pending, 0)
      [(2, db1 .pending), (4, db1 .changes_requested)] (by decide)).2
    ⟨(4, db1 .changes_requested), by decide, Or.inr (by decide)⟩

/-! ### C9 — watch with a positive timeout reports timeout, never success -/

/-- Whenever the target check cannot fire (every polled status misses the
target) and the PR is always found, a watch with a positive timeout returns
the timeout outcome as soon as a poll's elapsed time exceeds the timeout. -/
theorem watch_no_match_times_out (prId timeout : Nat)
    (base : PRStatus × Nat) (untl : WatchUntil) (target : PRStatus)
    (hcheck : ∀ st u cs, ¬ st = target →
      watchCheck untl base st u cs = none)
    (htpos : 0 < timeout) :
    ∀ polls : List (Nat × DB),
      (∀ p ∈ polls, (statusOf p.2 prId).isSome = true
        ∧ statusOf p.2 prId ≠ some target) →
      (∃ p ∈ polls, timeout < p.1) →
      watch prId untl timeout base polls = .timedOut := by
  intro polls
  induction polls with
  | nil =>
    intro _ hex
    rcases hex with ⟨p, hp, _⟩
    simp at hp
  | cons q rest ih =>
    intro hnever hex
    obtain ⟨e, db⟩ := q
    by_cases he : timeout < e
    · simp [watch, htpos, he]
    · obtain ⟨hqsome, hqne⟩ := hnever (e, db) (by simp)
      rcases hpr : get_pr_by_uuid db prId with _ | pr
      · rw [statusOf, hpr] at hqsome
        simp at hqsome
      · have hstne : ¬ pr.status = target := by
          intro hc
          apply hqne
          simp [statusOf, hpr, hc]
        have hnone :=
          hcheck pr.status pr.updated_at (get_comments db prId true) hstne
        have hw2 : watch prId untl timeout base ((e, db) :: rest)
            = watch prId untl timeout base rest := by
          simp [watch, htpos, he, hpr, hnone]
        rw [hw2]
        apply ih (fun p hp => hnever p (List.mem_cons_of_mem _ hp))
        rcases hex with ⟨p, hp, hpe⟩
        rcases List.mem_cons.mp hp with rfl | hp'
        · exact absurd hpe he
        · exact ⟨p, hp', hpe⟩

/-- C9: for every single-status watch target (APPROVED, CHANGES_REQUESTED
or PENDING), a positive timeout, and a poll sequence in which the PR always
exists but never has the target status, the watch terminates with the
timeout outcome as soon as a poll's elapsed time exceeds the timeout — an
outcome distinct from every success outcome. -/
theorem watch_timeout_not_false_success (prId timeout : Nat)
    (base : PRStatus × Nat) (polls : List (Nat × DB))
    (untl : WatchUntil) (target : PRStatus)
    (huntl : (untl = .approved ∧ target = .approved)
      ∨ (untl = .changes_requested ∧ target = .changes_requested)
      ∨ (untl = .pending ∧ target = .pending))
    (htpos : 0 < timeout)
    (hnever : ∀ p ∈ polls, (statusOf p.2 prId).isSome = true
        ∧ statusOf p.2 prId ≠ some target)
    (hex : ∃ p ∈ polls, timeout < p.1) :
    watch prId untl timeout base polls = .timedOut
    ∧ ∀ st cs, watch prId untl timeout base polls
        ≠ .success st cs := by
  have hcheck : ∀ st u cs, ¬ st = target →
      watchCheck untl base st u cs = none := by
    rcases huntl with ⟨h1, h2⟩ | ⟨h1, h2⟩ | ⟨h1, h2⟩ <;>
      subst h1 <;> subst h2 <;>
      intro st u cs hne <;> simp [watchCheck, hne]
  have hmain := watch_no_match_times_out prId timeout base untl target
    hcheck htpos polls hnever hex
  refine ⟨hmain, ?_⟩
  intro st cs h
  rw [hmain] at h
  exact WatchOutcome.noConfusion h

/-- Witness for C9: a PR stuck in PENDING watched for the APPROVED target
with timeout 5 times out at the poll with elapsed time 7. -/
theorem watch_timeout_not_false_success_witness :
    watch 1 .approved 5 (.pending, 0)
        [(1, db1 .pending), (7, db1 .pending)] = .timedOut
      ∧ ∀ st cs, watch 1 .approved 5 (.pending, 0)
          [(1, db1 .pending), (7, db1 .pending)] ≠ .success st cs :=
  watch_timeout_not_false_success 1 5 (.pending, 0)
    [(1, db1 .pending), (7, db1 .pending)] .approved .approved
    (Or.inl ⟨rfl, rfl⟩) (by decide) (by decide)
    ⟨(7, db1 .pending), by decide, by decide⟩

end ClaudeReviewer
